import Mathlib

/-!
Verification development for the model-based monocular visual odometry core
of `ccny_rgbd` (`MonocularVisualOdometry`, declared in
`src/ccny_rgbd/include/ccny_rgbd/apps/mono_vo.h`).

The repository ships only the interface header; the bodies of `fitness`,
`estimateFirstPose`, `getCorrespondences`, `estimateMotion`, `getMatches`,
`project3DTo2D` and `getVisible3DPoints` are not present under `src/`.
Every operation below is therefore a shallow embedding modelled from the
specification, with coordinates over `ℚ` and squared Euclidean pixel
distances (`dist ≤ t` is encoded as `0 ≤ t ∧ dist² ≤ t²`, avoiding square
roots while preserving all order comparisons exactly).
-/

namespace MonoVO

/-- A 2D pixel point (detected feature or projected model point). -/
structure Point2D where
  x : ℚ
  y : ℚ
deriving DecidableEq, Repr

/-- A 3D model point. -/
structure Point3D where
  x : ℚ
  y : ℚ
  z : ℚ
deriving DecidableEq, Repr

/-- A 3×3 matrix (rotation part of an extrinsic pose). -/
structure Mat3 where
  a11 : ℚ
  a12 : ℚ
  a13 : ℚ
  a21 : ℚ
  a22 : ℚ
  a23 : ℚ
  a31 : ℚ
  a32 : ℚ
  a33 : ℚ
deriving DecidableEq, Repr

/-- A 3×1 vector (translation part of an extrinsic pose). -/
structure Vec3 where
  x : ℚ
  y : ℚ
  z : ℚ
deriving DecidableEq, Repr

/-- Modelled from the spec: the 3×4 extrinsic camera matrix `E = [R|t]`
(rotation + translation), the `cv::Mat E` of the header. -/
structure Extrinsic where
  R : Mat3
  t : Vec3
deriving DecidableEq, Repr

/-- Modelled from the spec: `CameraIntrinsics`, the 3×3 intrinsic matrix
(focal lengths and principal point). -/
structure Intrinsics where
  fx : ℚ
  fy : ℚ
  cx : ℚ
  cy : ℚ
deriving DecidableEq, Repr

/-- Apply the extrinsic transform `[R|t]` to a 3D world point, yielding the
point in camera coordinates. -/
def applyExtrinsic (E : Extrinsic) (p : Point3D) : Point3D :=
  ⟨E.R.a11 * p.x + E.R.a12 * p.y + E.R.a13 * p.z + E.t.x,
   E.R.a21 * p.x + E.R.a22 * p.y + E.R.a23 * p.z + E.t.y,
   E.R.a31 * p.x + E.R.a32 * p.y + E.R.a33 * p.z + E.t.z⟩

/-- Modelled from the spec (`CameraModel.project`, body of `project3DTo2D`
missing from `src/`): applies the extrinsic transform then the intrinsic
projection; fails (returns `none`, "behind camera") when the transformed
point's depth is ≤ 0. -/
def projectPoint (M : Intrinsics) (E : Extrinsic) (p : Point3D) : Option Point2D :=
  let c := applyExtrinsic E p
  if c.z ≤ 0 then none
  else some ⟨M.fx * c.x / c.z + M.cx, M.fy * c.y / c.z + M.cy⟩

/-- Squared Euclidean distance between two 2D pixel points. -/
def sqDist (p q : Point2D) : ℚ :=
  (p.x - q.x) * (p.x - q.x) + (p.y - q.y) * (p.y - q.y)

/-- Modelled from the spec (`CameraModel.isVisible`): the pixel lies within
the sensor resolution `w × h`. -/
def isVisible (q : Point2D) (w h : ℚ) : Bool :=
  decide (0 ≤ q.x) && decide (q.x < w) && decide (0 ≤ q.y) && decide (q.y < h)

/-- Modelled from the spec (body of `getVisible3DPoints` missing from
`src/`): project every model point through the pose; discard the points
that fail visibility (behind camera, or outside the image bounds); keep
each survivor paired with its projection. -/
def getVisible3DPoints (M : Intrinsics) (E : Extrinsic) (w h : ℚ)
    (pts : List Point3D) : List (Point3D × Point2D) :=
  pts.filterMap fun p =>
    (projectPoint M E p).bind fun q =>
      if isVisible q w h then some (p, q) else none

/-- Modelled from the spec (`SpatialMatcher`): the nearest neighbour of a
query point among the detected 2D features, as an index/squared-distance
pair; `none` when there are no features. Earliest index wins ties. -/
def nearestFeature (features : List Point2D) (q : Point2D) : Option (ℕ × ℚ) :=
  (features.enum).foldl
    (fun best p =>
      match best with
      | none => some (p.1, sqDist q p.2)
      | some jd => if sqDist q p.2 < jd.2 then some (p.1, sqDist q p.2) else best)
    none

/-- Modelled from the spec (`SpatialMatcher.match`, first phase of
`getMatches`): for each query point, the nearest-neighbour feature index
and squared distance, or `none` ("no match") when that distance exceeds
the bound `maxDistSq`. -/
def rawMatches (queries features : List Point2D) (maxDistSq : ℚ) :
    List (Option (ℕ × ℚ)) :=
  queries.map fun q =>
    (nearestFeature features q).bind fun jd =>
      if jd.2 ≤ maxDistSq then some jd else none

/-- Query `i`, matched to target `t` at squared distance `d`, is the unique
best claimant of `t` among all raw matches: every other query matched to
`t` is strictly farther, or equally far with a larger index. -/
def isBestMatch (raw : List (Option (ℕ × ℚ))) (i t : ℕ) (d : ℚ) : Bool :=
  (List.range raw.length).all fun j =>
    if j = i then true
    else
      match raw[j]? with
      | some (some td) =>
          if td.1 = t then decide (d < td.2) || (decide (d = td.2) && decide (i < j))
          else true
      | _ => true

/-- Modelled from the spec (repeated-match pruning of `getMatches`): when
two queries map to the same target index, only the closer one keeps the
match; the other is marked unmatched (`none`). -/
def pruneMatches (raw : List (Option (ℕ × ℚ))) : List (Option (ℕ × ℚ)) :=
  (List.range raw.length).map fun i =>
    match raw[i]? with
    | some (some td) => if isBestMatch raw i td.1 td.2 then some td else none
    | _ => none

/-- Modelled from the spec (body of `getMatches` missing from `src/`): for
each 2D query point, nearest-neighbour search against the detected
features with bound `maxDistSq`, optionally de-duplicated by
repeated-match pruning (`prune_repeated_matches`). -/
def getMatches (queries features : List Point2D) (maxDistSq : ℚ)
    (pruneRepeatedMatches : Bool) : List (Option (ℕ × ℚ)) :=
  let raw := rawMatches queries features maxDistSq
  if pruneRepeatedMatches then pruneMatches raw else raw

/-- Modelled from the spec (inlier test of the RANSAC `fitness` routine): a
3D point is an inlier for its paired 2D feature when it projects in front
of the camera and the projected pixel distance to the feature is at most
`thr` (encoded with squared distances). -/
def isInlier (M : Intrinsics) (E : Extrinsic) (thr : ℚ)
    (p : Point3D) (f : Point2D) : Bool :=
  match projectPoint M E p with
  | none => false
  | some q => decide (0 ≤ thr) && decide (sqDist q f ≤ thr * thr)

/-- The sub-list of paired (3D, 2D) correspondences that are inliers under
pose hypothesis `E` and pixel threshold `thr`. -/
def collectInliers (M : Intrinsics) (E : Extrinsic) (thr : ℚ)
    (pairs : List (Point3D × Point2D)) : List (Point3D × Point2D) :=
  pairs.filter fun pf => isInlier M E thr pf.1 pf.2

/-- The inlier count of a pose hypothesis on a paired correspondence set. -/
def countInliers (M : Intrinsics) (E : Extrinsic) (thr : ℚ)
    (pairs : List (Point3D × Point2D)) : ℕ :=
  (collectInliers M E thr pairs).length

/-- Modelled from the spec (body of `fitness` missing from `src/`): pair the
sampled 3D points with the detected 2D features by index, collect as
inliers the pairs whose projected distance is ≤ `thr` pixels, return the
inlier 3D points, the inlier 2D points, and whether the inlier count
reaches `min_inliers`. -/
def fitness (M : Intrinsics) (E : Extrinsic) (thr : ℚ) (min_inliers : ℕ)
    (sample_3D_points : List Point3D) (feature_2D_points : List Point2D) :
    Bool × List Point3D × List Point2D :=
  let inl := collectInliers M E thr (sample_3D_points.zip feature_2D_points)
  (decide (min_inliers ≤ inl.length), inl.map Prod.fst, inl.map Prod.snd)

/-- Modelled from the spec (body of `getCorrespondences` missing from
`src/`): project every model point through `E`, discard the invisible ones
(`getVisible3DPoints`), query the matcher against the detected features
with the descriptor-space bound, and keep each surviving (3D point,
matched 2D feature) pair. `last_iteration` selects the stricter
de-duplication (repeated-match pruning) used on the final pass. -/
def getCorrespondences (M : Intrinsics) (w h maxDistSq : ℚ)
    (model_3D : List Point3D) (features_2D : List Point2D) (E : Extrinsic)
    (last_iteration : Bool) : List Point3D × List Point2D :=
  let vis := getVisible3DPoints M E w h model_3D
  let ms := getMatches (vis.map Prod.snd) features_2D maxDistSq last_iteration
  let pairs := (vis.zip ms).filterMap fun pm =>
    pm.2.bind fun td => features_2D[td.1]?.map fun f => (pm.1.1, f)
  (pairs.map Prod.fst, pairs.map Prod.snd)

/-- Modelled from the spec: the boolean result of `getCorrespondences`
("whether correspondences were found"), alongside the two output
vectors. Empty output is a normal value, flagged `false`, not an error. -/
def getCorrespondencesB (M : Intrinsics) (w h maxDistSq : ℚ)
    (model_3D : List Point3D) (features_2D : List Point2D) (E : Extrinsic)
    (last_iteration : Bool) : Bool × List Point3D × List Point2D :=
  let c := getCorrespondences M w h maxDistSq model_3D features_2D E last_iteration
  (!c.1.isEmpty, c.1, c.2)

/-- Modelled from the spec (best-hypothesis tracking of the RANSAC loop):
keep whichever of the current best and the new hypothesis `(E, n)` has
the higher inlier count. -/
def betterHypothesis (best : Option (Extrinsic × ℕ)) (E : Extrinsic)
    (n : ℕ) : Option (Extrinsic × ℕ) :=
  match best with
  | none => some (E, n)
  | some en => if en.2 < n then some (E, n) else some en

/-- Modelled from the spec (RANSAC loop of `estimateFirstPose`, body
missing from `src/`): iterate over hypotheses supplied by the random
source / minimal 6-point solver (`hyps i = none` is a degenerate sample,
a failed iteration). Track the hypothesis with the highest inlier count;
early-exit as soon as a hypothesis reaches `min_inliers`. At fuel
exhaustion, succeed only if the best tracked hypothesis reached
`min_inliers`. -/
def estimateFirstPoseAux (M : Intrinsics) (thr : ℚ) (min_inliers : ℕ)
    (pairs : List (Point3D × Point2D)) (hyps : ℕ → Option Extrinsic) :
    ℕ → ℕ → Option (Extrinsic × ℕ) → Option Extrinsic
  | 0, _, best =>
      best.bind fun en => if min_inliers ≤ en.2 then some en.1 else none
  | fuel + 1, i, best =>
      match hyps i with
      | none => estimateFirstPoseAux M thr min_inliers pairs hyps fuel (i + 1) best
      | some E =>
          let n := countInliers M E thr pairs
          if min_inliers ≤ n then some E
          else
            estimateFirstPoseAux M thr min_inliers pairs hyps fuel (i + 1)
              (betterHypothesis best E n)

/-- Modelled from the spec (`estimateFirstPose`, body missing from `src/`):
RANSAC bootstrap over the model points paired by index with the detected
2D features, up to `max_iterations` iterations. Returns `none` (failure,
no pose) when no hypothesis ever reaches `min_inliers`. -/
def estimateFirstPose (M : Intrinsics) (model_3D : List Point3D)
    (features_2D : List Point2D) (min_inliers max_iterations : ℕ) (thr : ℚ)
    (hyps : ℕ → Option Extrinsic) : Option Extrinsic :=
  estimateFirstPoseAux M thr min_inliers (model_3D.zip features_2D) hyps
    max_iterations 0 none

/-- A camera pose: 3×3 rotation matrix and 3×1 translation vector (the
in/out `rmat`/`tvec` arguments of `estimateFirstPose`/`estimateMotion`). -/
structure Pose where
  rmat : Mat3
  tvec : Vec3
deriving DecidableEq, Repr

/-- The 3×4 extrinsic matrix `[R|t]` assembled from a pose. -/
def toExtrinsic (p : Pose) : Extrinsic := ⟨p.rmat, p.tvec⟩

/-- Modelled from the spec (PnP refinement loop of `estimateMotion`, body
missing from `src/`): each iteration finds correspondences at the current
pose (the final pass uses the stricter de-duplication), aborts with
tracking lost (`none`) when they are empty, otherwise refines the pose
with the pluggable PnP solver `pnp` and repeats. Also returns the number
of PnP solves performed; the iteration count is the sole stopping
criterion (no residual-based convergence check). -/
def estimateMotionAux (M : Intrinsics) (w h maxDistSq : ℚ)
    (model : List Point3D) (features_2D : List Point2D)
    (pnp : List (Point3D × Point2D) → Pose → Pose) :
    Pose → ℕ → Option Pose × ℕ
  | pose, 0 => (some pose, 0)
  | pose, fuel + 1 =>
      let c := getCorrespondences M w h maxDistSq model features_2D
        (toExtrinsic pose) (decide (fuel = 0))
      if c.1.isEmpty then (none, 0)
      else
        let pose' := pnp (c.1.zip c.2) pose
        let r := estimateMotionAux M w h maxDistSq model features_2D pnp pose' fuel
        (r.1, r.2 + 1)

/-- Modelled from the spec (`estimateMotion`): up to `max_PnP_iterations`
refinement iterations starting from the prior pose. -/
def estimateMotion (M : Intrinsics) (w h maxDistSq : ℚ)
    (model : List Point3D) (features_2D : List Point2D)
    (pnp : List (Point3D × Point2D) → Pose → Pose) (pose : Pose)
    (max_PnP_iterations : ℕ) : Option Pose × ℕ :=
  estimateMotionAux M w h maxDistSq model features_2D pnp pose max_PnP_iterations

/-- The default value of the `max_PnP_iterations` argument of
`estimateMotion` (`int max_PnP_iterations = 10` in the header). -/
def defaultMaxPnPIterations : ℕ := 10

/-- `estimateMotion` as called with the defaulted iteration bound. -/
def estimateMotionDefault (M : Intrinsics) (w h maxDistSq : ℚ)
    (model : List Point3D) (features_2D : List Point2D)
    (pnp : List (Point3D × Point2D) → Pose → Pose) (pose : Pose) :
    Option Pose × ℕ :=
  estimateMotion M w h maxDistSq model features_2D pnp pose
    defaultMaxPnPIterations

/-- Modelled from the spec: the state of `MonocularVisualOdometry` relevant
to pose estimation — the shared read-only intrinsic matrix and 3D model,
and the mutable pose (`rmat_`, `tvec_`). -/
structure MonoVOState where
  intrinsic_matrix : Intrinsics
  model : List Point3D
  rmat : Mat3
  tvec : Vec3
deriving Repr

/-- Modelled from the spec: `estimateFirstPose` acting on the odometry
state — on success it writes the recovered rotation/translation; on
failure (no hypothesis reaches `min_inliers`) the pose is left
unchanged. -/
def estimateFirstPoseS (s : MonoVOState) (features_2D : List Point2D)
    (min_inliers max_iterations : ℕ) (thr : ℚ)
    (hyps : ℕ → Option Extrinsic) : MonoVOState :=
  match estimateFirstPose s.intrinsic_matrix s.model features_2D
      min_inliers max_iterations thr hyps with
  | some E => { s with rmat := E.R, tvec := E.t }
  | none => s

/-- Modelled from the spec: `estimateMotion` acting on the odometry state —
on success it writes the refined rotation/translation; on tracking lost
the pose is left unchanged (to be re-bootstrapped). -/
def estimateMotionS (s : MonoVOState) (w h maxDistSq : ℚ)
    (features_2D : List Point2D)
    (pnp : List (Point3D × Point2D) → Pose → Pose)
    (max_PnP_iterations : ℕ) : MonoVOState :=
  match (estimateMotion s.intrinsic_matrix w h maxDistSq s.model features_2D
      pnp ⟨s.rmat, s.tvec⟩ max_PnP_iterations).1 with
  | some p => { s with rmat := p.rmat, tvec := p.tvec }
  | none => s

/-! ### Helper lemmas -/

lemma projectPoint_eq_none_of_depth_nonpos (M : Intrinsics) (E : Extrinsic)
    (p : Point3D) (h : (applyExtrinsic E p).z ≤ 0) :
    projectPoint M E p = none := by
  unfold projectPoint
  simp [h]

lemma mem_getVisible3DPoints {M : Intrinsics} {E : Extrinsic} {w h : ℚ}
    {pts : List Point3D} {pq : Point3D × Point2D}
    (hm : pq ∈ getVisible3DPoints M E w h pts) :
    pq.1 ∈ pts ∧ projectPoint M E pq.1 = some pq.2 := by
  unfold getVisible3DPoints at hm
  obtain ⟨a, ha, hfa⟩ := List.mem_filterMap.mp hm
  cases hq : projectPoint M E a with
  | none => rw [hq] at hfa; exact absurd hfa (by simp)
  | some q =>
      rw [hq] at hfa
      rw [Option.some_bind] at hfa
      obtain ⟨-, hfa⟩ := Option.ite_none_right_eq_some.mp hfa
      obtain rfl := Option.some_inj.mp hfa
      exact ⟨ha, hq⟩

lemma mem_corr3D_project {M : Intrinsics} {w h maxDistSq : ℚ}
    {model : List Point3D} {feats : List Point2D} {E : Extrinsic} {li : Bool}
    {p : Point3D}
    (hm : p ∈ (getCorrespondences M w h maxDistSq model feats E li).1) :
    ∃ q, projectPoint M E p = some q := by
  unfold getCorrespondences at hm
  simp only [List.mem_map] at hm
  obtain ⟨pr, hpr, hfst⟩ := hm
  obtain ⟨pm, hpm, hfpm⟩ := List.mem_filterMap.mp hpr
  cases htd : pm.2 with
  | none => rw [htd] at hfpm; exact absurd hfpm (by simp)
  | some td =>
      rw [htd] at hfpm
      rw [Option.some_bind] at hfpm
      cases hf : feats[td.1]? with
      | none => rw [hf] at hfpm; exact absurd hfpm (by simp)
      | some f =>
          rw [hf] at hfpm
          rw [Option.map_some'] at hfpm
          obtain rfl := Option.some_inj.mp hfpm
          obtain ⟨pv, m⟩ := pm
          have hv : pv ∈ (getVisible3DPoints M E w h model) :=
            (List.mem_zip hpm).1
          have := mem_getVisible3DPoints hv
          subst hfst
          exact ⟨pv.2, this.2⟩

lemma length_filter_mono {α : Type} (l : List α) (p q : α → Bool)
    (hpq : ∀ a ∈ l, p a = true → q a = true) :
    (l.filter p).length ≤ (l.filter q).length := by
  induction l with
  | nil => simp
  | cons a l ih =>
      have ih' := ih fun x hx => hpq x (List.mem_cons_of_mem _ hx)
      by_cases hp : p a = true
      · have hq := hpq a (List.mem_cons_self _ _) hp
        simp only [List.filter_cons, hp, hq, if_true, List.length_cons]
        omega
      · simp only [List.filter_cons, Bool.if_false_right]
        rw [if_neg hp]
        cases hqa : q a
        · simpa using ih'
        · simp only [if_true, List.length_cons]
          omega

lemma isInlier_mono (M : Intrinsics) (E : Extrinsic) (p : Point3D)
    (f : Point2D) {t1 t2 : ℚ} (h12 : t1 ≤ t2)
    (h : isInlier M E t1 p f = true) : isInlier M E t2 p f = true := by
  unfold isInlier at h ⊢
  cases hq : projectPoint M E p with
  | none => rw [hq] at h; simp at h
  | some q =>
      rw [hq] at h
      simp only [Bool.and_eq_true, decide_eq_true_eq] at h ⊢
      exact ⟨le_trans h.1 h12,
        le_trans h.2 (mul_self_le_mul_self h.1 h12)⟩

lemma isInlier_iff (M : Intrinsics) (E : Extrinsic) (thr : ℚ) (p : Point3D)
    (f : Point2D) :
    isInlier M E thr p f = true ↔
      ∃ q, projectPoint M E p = some q ∧ 0 ≤ thr ∧ sqDist q f ≤ thr * thr := by
  unfold isInlier
  cases hq : projectPoint M E p <;> simp [hq]

/-! ### Claims -/

/-- C3: a 3D model point whose depth after the extrinsic transform is ≤ 0
(behind the camera) is discarded by the visibility filter and never
appears among the 3D points of any correspondence produced by
`getCorrespondences`. -/
theorem behind_camera_never_in_correspondences
    (M : Intrinsics) (w h maxDistSq : ℚ) (model : List Point3D)
    (feats : List Point2D) (E : Extrinsic) (li : Bool) (p : Point3D)
    (hdepth : (applyExtrinsic E p).z ≤ 0) :
    p ∉ (getCorrespondences M w h maxDistSq model feats E li).1 := by
  intro hmem
  obtain ⟨q, hq⟩ := mem_corr3D_project hmem
  rw [projectPoint_eq_none_of_depth_nonpos M E p hdepth] at hq
  exact Option.noConfusion hq

/-- Witness for C3 at a concrete input: the point (0,0,−1) has depth −1
under the identity pose and indeed appears in no correspondence. -/
theorem behind_camera_never_in_correspondences_witness :
    (applyExtrinsic ⟨⟨1,0,0,0,1,0,0,0,1⟩, ⟨0,0,0⟩⟩ ⟨0,0,-1⟩).z ≤ 0 ∧
      (⟨0,0,-1⟩ : Point3D) ∉
        (getCorrespondences ⟨1,1,0,0⟩ 10 10 100 [⟨0,0,-1⟩, ⟨0,0,5⟩]
          [⟨0,0⟩] ⟨⟨1,0,0,0,1,0,0,0,1⟩, ⟨0,0,0⟩⟩ true).1 :=
  ⟨by norm_num [applyExtrinsic],
   behind_camera_never_in_correspondences ⟨1,1,0,0⟩ 10 10 100
     [⟨0,0,-1⟩, ⟨0,0,5⟩] [⟨0,0⟩] ⟨⟨1,0,0,0,1,0,0,0,1⟩, ⟨0,0,0⟩⟩ true
     ⟨0,0,-1⟩ (by norm_num [applyExtrinsic])⟩

/-- C4: for a fixed correspondence set, the inlier count computed by
`fitness` is monotone in the pixel distance threshold: `t1 ≤ t2` implies
the count at `t2` is at least the count at `t1`. -/
theorem fitness_inlier_count_monotone
    (M : Intrinsics) (E : Extrinsic) (min_inliers : ℕ)
    (s3 : List Point3D) (f2 : List Point2D) {t1 t2 : ℚ} (h : t1 ≤ t2) :
    (fitness M E t1 min_inliers s3 f2).2.1.length ≤
      (fitness M E t2 min_inliers s3 f2).2.1.length := by
  simp only [fitness, List.length_map, collectInliers]
  exact length_filter_mono _ _ _
    fun pf _ hp => isInlier_mono M E pf.1 pf.2 h hp

/-- Witness for C4 at a concrete input: thresholds 0 ≤ 1 on a one-point
correspondence set. -/
theorem fitness_inlier_count_monotone_witness :
    (0 : ℚ) ≤ 1 ∧
      (fitness ⟨1,1,0,0⟩ ⟨⟨1,0,0,0,1,0,0,0,1⟩, ⟨0,0,0⟩⟩ 0 1
          [⟨0,0,5⟩] [⟨0,0⟩]).2.1.length ≤
        (fitness ⟨1,1,0,0⟩ ⟨⟨1,0,0,0,1,0,0,0,1⟩, ⟨0,0,0⟩⟩ 1 1
          [⟨0,0,5⟩] [⟨0,0⟩]).2.1.length :=
  ⟨by norm_num,
   fitness_inlier_count_monotone ⟨1,1,0,0⟩ ⟨⟨1,0,0,0,1,0,0,0,1⟩, ⟨0,0,0⟩⟩ 1
     [⟨0,0,5⟩] [⟨0,0⟩] (by norm_num)⟩

/-- C5: `fitness` collects as inliers exactly those sampled points whose
projection under the candidate extrinsic lies within `thr` pixels of
their paired 2D feature, and returns `true` iff the inlier count reaches
`min_inliers`. -/
theorem fitness_accepts_iff_enough_inliers
    (M : Intrinsics) (E : Extrinsic) (thr : ℚ) (min_inliers : ℕ)
    (s3 : List Point3D) (f2 : List Point2D) :
    ((fitness M E thr min_inliers s3 f2).1 = true ↔
        min_inliers ≤ (fitness M E thr min_inliers s3 f2).2.1.length)
    ∧ ∀ (p : Point3D) (f : Point2D),
        (p, f) ∈ ((fitness M E thr min_inliers s3 f2).2.1.zip
            (fitness M E thr min_inliers s3 f2).2.2) ↔
          ((p, f) ∈ s3.zip f2 ∧
            ∃ q, projectPoint M E p = some q ∧ 0 ≤ thr ∧
              sqDist q f ≤ thr * thr) := by
  constructor
  · simp [fitness]
  · intro p f
    have hzip : ((collectInliers M E thr (s3.zip f2)).map Prod.fst).zip
        ((collectInliers M E thr (s3.zip f2)).map Prod.snd) =
        collectInliers M E thr (s3.zip f2) := by
      rw [List.zip_map']
      simp
    simp only [fitness]
    rw [hzip]
    simp only [collectInliers, List.mem_filter, isInlier_iff]

/-- Witness for C5 at a concrete input: a single sampled point projecting
exactly onto its paired feature, `min_inliers = 1`. -/
theorem fitness_accepts_iff_enough_inliers_witness :
    ((fitness ⟨1,1,0,0⟩ ⟨⟨1,0,0,0,1,0,0,0,1⟩, ⟨0,0,0⟩⟩ 1 1
        [⟨0,0,5⟩] [⟨0,0⟩]).1 = true ↔
      1 ≤ (fitness ⟨1,1,0,0⟩ ⟨⟨1,0,0,0,1,0,0,0,1⟩, ⟨0,0,0⟩⟩ 1 1
        [⟨0,0,5⟩] [⟨0,0⟩]).2.1.length) :=
  (fitness_accepts_iff_enough_inliers ⟨1,1,0,0⟩
    ⟨⟨1,0,0,0,1,0,0,0,1⟩, ⟨0,0,0⟩⟩ 1 1 [⟨0,0,5⟩] [⟨0,0⟩]).1

/-- C10: the two inlier vectors produced by `fitness` have equal length and
are index-aligned — the `i`-th 3D inlier and the `i`-th 2D inlier form a
pair drawn from the zipped input sample/feature lists. -/
theorem fitness_inlier_vectors_aligned
    (M : Intrinsics) (E : Extrinsic) (thr : ℚ) (min_inliers : ℕ)
    (s3 : List Point3D) (f2 : List Point2D) :
    (fitness M E thr min_inliers s3 f2).2.1.length =
        (fitness M E thr min_inliers s3 f2).2.2.length
    ∧ ∀ (i : ℕ) (p : Point3D) (f : Point2D),
        (fitness M E thr min_inliers s3 f2).2.1[i]? = some p →
        (fitness M E thr min_inliers s3 f2).2.2[i]? = some f →
        (p, f) ∈ s3.zip f2 := by
  refine ⟨by simp [fitness], ?_⟩
  intro i p f hp hf
  simp only [fitness] at hp hf
  rw [List.getElem?_map] at hp hf
  cases hin : (collectInliers M E thr (s3.zip f2))[i]? with
  | none => rw [hin] at hp; simp at hp
  | some pr =>
      rw [hin] at hp hf
      rw [Option.map_some'] at hp hf
      obtain rfl := Option.some_inj.mp hp
      obtain rfl := Option.some_inj.mp hf
      have hm : pr ∈ collectInliers M E thr (s3.zip f2) :=
        List.getElem?_mem hin
      have hz : pr ∈ s3.zip f2 := List.mem_of_mem_filter hm
      simpa using hz

/-- Witness for C10 at a concrete input: the single inlier pair at index 0
comes from the zipped inputs. -/
theorem fitness_inlier_vectors_aligned_witness :
    (fitness ⟨1,1,0,0⟩ ⟨⟨1,0,0,0,1,0,0,0,1⟩, ⟨0,0,0⟩⟩ 1 1
        [⟨0,0,5⟩] [⟨0,0⟩]).2.1.length =
      (fitness ⟨1,1,0,0⟩ ⟨⟨1,0,0,0,1,0,0,0,1⟩, ⟨0,0,0⟩⟩ 1 1
        [⟨0,0,5⟩] [⟨0,0⟩]).2.2.length ∧
    ((⟨0,0,5⟩ : Point3D), (⟨0,0⟩ : Point2D)) ∈
      [((⟨0,0,5⟩ : Point3D), (⟨0,0⟩ : Point2D))] :=
  ⟨(fitness_inlier_vectors_aligned ⟨1,1,0,0⟩
      ⟨⟨1,0,0,0,1,0,0,0,1⟩, ⟨0,0,0⟩⟩ 1 1 [⟨0,0,5⟩] [⟨0,0⟩]).1,
   (fitness_inlier_vectors_aligned ⟨1,1,0,0⟩
      ⟨⟨1,0,0,0,1,0,0,0,1⟩, ⟨0,0,0⟩⟩ 1 1 [⟨0,0,5⟩] [⟨0,0⟩]).2 0
      ⟨0,0,5⟩ ⟨0,0⟩
      (by norm_num [fitness, collectInliers, isInlier, projectPoint,
        applyExtrinsic, sqDist, List.filter])
      (by norm_num [fitness, collectInliers, isInlier, projectPoint,
        applyExtrinsic, sqDist, List.filter])⟩

lemma getMatches_prune_get?_some {queries features : List Point2D}
    {maxDistSq : ℚ} {i t : ℕ} {d : ℚ}
    (h : (getMatches queries features maxDistSq true)[i]? =
      some (some (t, d))) :
    (rawMatches queries features maxDistSq)[i]? = some (some (t, d)) ∧
      isBestMatch (rawMatches queries features maxDistSq) i t d = true := by
  set raw := rawMatches queries features maxDistSq with hraw
  have h' : (pruneMatches raw)[i]? = some (some (t, d)) := by
    simpa [getMatches, hraw] using h
  unfold pruneMatches at h'
  rw [List.getElem?_map] at h'
  by_cases hi : i < raw.length
  · rw [List.getElem?_range hi, Option.map_some'] at h'
    cases hr : raw[i]? with
    | none => simp [hr] at h'
    | some m =>
        cases m with
        | none => simp [hr] at h'
        | some td =>
            simp only [hr] at h'
            by_cases hb : isBestMatch raw i td.1 td.2 = true
            · rw [if_pos hb] at h'
              obtain rfl : td = (t, d) :=
                Option.some_inj.mp (Option.some_inj.mp h')
              exact ⟨rfl, hb⟩
            · rw [if_neg hb] at h'
              exact absurd h' (by simp)
  · rw [List.getElem?_eq_none
      (by simp only [List.length_range]; exact not_lt.mp hi)] at h'
    exact absurd h' (by simp)

lemma isBestMatch_spec {raw : List (Option (ℕ × ℚ))} {i t : ℕ} {d : ℚ}
    (hb : isBestMatch raw i t d = true) {j : ℕ} {dj : ℚ}
    (hne : j ≠ i) (hj : raw[j]? = some (some (t, dj))) :
    d < dj ∨ (d = dj ∧ i < j) := by
  have hjlen : j < raw.length := (List.getElem?_eq_some_iff.mp hj).1
  unfold isBestMatch at hb
  have h2 := List.all_eq_true.mp hb j (List.mem_range.mpr hjlen)
  simp only [if_neg hne, hj] at h2
  simpa using h2

/-- C1: with repeated-match pruning enabled, the match set returned by
`getMatches` never assigns the same 2D feature index to two distinct
queries; when two queries map to the same target in the raw matches, the
farther one is marked unmatched after pruning. -/
theorem prune_repeated_matches_unique
    (queries features : List Point2D) (maxDistSq : ℚ) :
    (∀ (i j ti tj : ℕ) (di dj : ℚ), i ≠ j →
        (getMatches queries features maxDistSq true)[i]? =
          some (some (ti, di)) →
        (getMatches queries features maxDistSq true)[j]? =
          some (some (tj, dj)) →
        ti ≠ tj)
    ∧ (∀ (i j t : ℕ) (di dj : ℚ), i ≠ j →
        (rawMatches queries features maxDistSq)[i]? =
          some (some (t, di)) →
        (rawMatches queries features maxDistSq)[j]? =
          some (some (t, dj)) →
        di < dj →
        (getMatches queries features maxDistSq true)[j]? = some none) := by
  constructor
  · intro i j ti tj di dj hij hi hj hteq
    subst hteq
    obtain ⟨hri, hbi⟩ := getMatches_prune_get?_some hi
    obtain ⟨hrj, hbj⟩ := getMatches_prune_get?_some hj
    have h1 := isBestMatch_spec hbi (Ne.symm hij) hrj
    have h2 := isBestMatch_spec hbj hij hri
    rcases h1 with h1 | ⟨h1e, h1l⟩ <;> rcases h2 with h2 | ⟨h2e, h2l⟩
    · exact absurd h2 (not_lt.mpr (le_of_lt h1))
    · exact absurd h1 (by rw [h2e]; exact lt_irrefl di)
    · exact absurd h2 (by rw [h1e]; exact lt_irrefl dj)
    · omega
  · intro i j t di dj hij hri hrj hdij
    have hjlen : j < (rawMatches queries features maxDistSq).length :=
      (List.getElem?_eq_some_iff.mp hrj).1
    have hb : ¬ isBestMatch (rawMatches queries features maxDistSq) j t dj
        = true := by
      intro hb
      rcases isBestMatch_spec hb hij hri with h | ⟨he, -⟩
      · exact absurd hdij (not_lt.mpr (le_of_lt h))
      · rw [he] at hdij; exact lt_irrefl di hdij
    show (pruneMatches (rawMatches queries features maxDistSq))[j]? =
      some none
    unfold pruneMatches
    rw [List.getElem?_map, List.getElem?_range hjlen, Option.map_some']
    simp only [hrj]
    rw [if_neg hb]

/-- Witness for C1 at a concrete input: two queries both matched to feature
index 0 in the raw matches; after pruning, the farther query (index 1) is
unmatched. -/
theorem prune_repeated_matches_unique_witness :
    (rawMatches [⟨0,0⟩, ⟨1,0⟩] [⟨0,0⟩] 10)[0]? = some (some (0, 0)) ∧
    (rawMatches [⟨0,0⟩, ⟨1,0⟩] [⟨0,0⟩] 10)[1]? = some (some (0, 1)) ∧
    (getMatches [⟨0,0⟩, ⟨1,0⟩] [⟨0,0⟩] 10 true)[1]? = some none := by
  have h0 : (rawMatches [⟨0,0⟩, ⟨1,0⟩] [⟨0,0⟩] 10)[0]? = some (some (0, 0)) := by
    norm_num [rawMatches, nearestFeature, sqDist, List.enum, List.enumFrom]
  have h1 : (rawMatches [⟨0,0⟩, ⟨1,0⟩] [⟨0,0⟩] 10)[1]? = some (some (0, 1)) := by
    norm_num [rawMatches, nearestFeature, sqDist, List.enum, List.enumFrom]
  exact ⟨h0, h1,
    (prune_repeated_matches_unique [⟨0,0⟩, ⟨1,0⟩] [⟨0,0⟩] 10).2 0 1 0 0 1
      (by norm_num) h0 h1 (by norm_num)⟩


lemma betterHypothesis_lt {min_inliers : ℕ} {best : Option (Extrinsic × ℕ)}
    (hbest : ∀ E n, best = some (E, n) → n < min_inliers)
    {E : Extrinsic} {n : ℕ} (hn : n < min_inliers) :
    ∀ E2 n2, betterHypothesis best E n = some (E2, n2) → n2 < min_inliers := by
  intro E2 n2 h
  cases best with
  | none =>
      simp only [betterHypothesis, Option.some_inj, Prod.mk.injEq] at h
      rw [← h.2]
      exact hn
  | some en =>
      simp only [betterHypothesis] at h
      by_cases hen : en.2 < n
      · rw [if_pos hen] at h
        simp only [Option.some_inj, Prod.mk.injEq] at h
        rw [← h.2]
        exact hn
      · rw [if_neg hen] at h
        exact hbest E2 n2 h

lemma estimateFirstPoseAux_none (M : Intrinsics) (thr : ℚ) (min_inliers : ℕ)
    (pairs : List (Point3D × Point2D)) (hyps : ℕ → Option Extrinsic)
    (hall : ∀ k E, hyps k = some E → countInliers M E thr pairs < min_inliers) :
    ∀ (fuel i : ℕ) (best : Option (Extrinsic × ℕ)),
      (∀ E n, best = some (E, n) → n < min_inliers) →
      estimateFirstPoseAux M thr min_inliers pairs hyps fuel i best = none := by
  intro fuel
  induction fuel with
  | zero =>
      intro i best hbest
      cases best with
      | none => rfl
      | some en =>
          obtain ⟨E, n⟩ := en
          have hn := hbest E n rfl
          simp [estimateFirstPoseAux, Nat.not_le.mpr hn]
  | succ fuel ih =>
      intro i best hbest
      cases hh : hyps i with
      | none =>
          simp only [estimateFirstPoseAux, hh]
          exact ih (i + 1) best hbest
      | some E =>
          simp only [estimateFirstPoseAux, hh]
          have hlt := hall i E hh
          rw [if_neg (Nat.not_le.mpr hlt)]
          exact ih (i + 1) _ (betterHypothesis_lt hbest hlt)

/-- C2: if no RANSAC hypothesis ever reaches `min_inliers` inliers on the
paired model/feature set, `estimateFirstPose` fails by returning `none`
(no pose), signalling a recoverable failure to the caller. -/
theorem estimateFirstPose_fails_without_enough_inliers
    (M : Intrinsics) (model : List Point3D) (feats : List Point2D)
    (min_inliers max_iterations : ℕ) (thr : ℚ)
    (hyps : ℕ → Option Extrinsic)
    (hall : ∀ k E, hyps k = some E →
      countInliers M E thr (model.zip feats) < min_inliers) :
    estimateFirstPose M model feats min_inliers max_iterations thr hyps =
      none := by
  unfold estimateFirstPose
  exact estimateFirstPoseAux_none M thr min_inliers (model.zip feats) hyps
    hall max_iterations 0 none (by intro E n h; exact absurd h (by simp))

/-- Witness for C2 at a concrete input: every iteration proposes the
identity pose, which has zero inliers on a model/feature pair that do not
reproject together, so the bootstrap fails. -/
theorem estimateFirstPose_fails_without_enough_inliers_witness :
    estimateFirstPose ⟨1,1,0,0⟩ [⟨0,0,5⟩] [⟨5,5⟩] 1 3 1
      (fun _ => some ⟨⟨1,0,0,0,1,0,0,0,1⟩, ⟨0,0,0⟩⟩) = none :=
  estimateFirstPose_fails_without_enough_inliers ⟨1,1,0,0⟩ [⟨0,0,5⟩] [⟨5,5⟩]
    1 3 1 (fun _ => some ⟨⟨1,0,0,0,1,0,0,0,1⟩, ⟨0,0,0⟩⟩)
    (by
      intro k E h
      obtain rfl := Option.some_inj.mp h.symm
      norm_num [countInliers, collectInliers, isInlier, projectPoint,
        applyExtrinsic, sqDist, List.filter])

/-- C6: if the correspondence search at the current pose yields an empty
set on an iteration of `estimateMotion`, the loop aborts immediately and
reports tracking lost (`none`, with zero PnP solves) instead of solving
PnP on zero points. -/
theorem estimateMotion_tracking_lost_on_empty
    (M : Intrinsics) (w h maxDistSq : ℚ) (model : List Point3D)
    (feats : List Point2D) (pnp : List (Point3D × Point2D) → Pose → Pose)
    (pose : Pose) (k : ℕ)
    (hemp : (getCorrespondences M w h maxDistSq model feats
        (toExtrinsic pose) (decide (k = 0))).1 = []) :
    estimateMotion M w h maxDistSq model feats pnp pose (k + 1) =
      (none, 0) := by
  show estimateMotionAux M w h maxDistSq model feats pnp pose (k + 1) =
    (none, 0)
  simp only [estimateMotionAux, hemp]
  simp

/-- Witness for C6 at a concrete input: with an empty feature set the
correspondence search is empty, so `estimateMotion` reports tracking
lost. -/
theorem estimateMotion_tracking_lost_on_empty_witness :
    estimateMotion ⟨1,1,0,0⟩ 10 10 100 [⟨0,0,5⟩] []
      (fun _ p => p) ⟨⟨1,0,0,0,1,0,0,0,1⟩, ⟨0,0,0⟩⟩ 1 = (none, 0) :=
  estimateMotion_tracking_lost_on_empty ⟨1,1,0,0⟩ 10 10 100 [⟨0,0,5⟩] []
    (fun _ p => p) ⟨⟨1,0,0,0,1,0,0,0,1⟩, ⟨0,0,0⟩⟩ 0
    (by norm_num [getCorrespondences, getVisible3DPoints, getMatches,
      pruneMatches, rawMatches, nearestFeature, projectPoint,
      applyExtrinsic, isVisible, sqDist, toExtrinsic])

lemma getMatches_nil_features (queries : List Point2D) (maxDistSq : ℚ)
    (pr : Bool) : ∀ m ∈ getMatches queries [] maxDistSq pr, m = none := by
  have hraw : ∀ m2 ∈ rawMatches queries [] maxDistSq, m2 = none := by
    intro m2 hm2
    obtain ⟨q, hq, he⟩ := List.mem_map.mp hm2
    rw [← he]
    rfl
  intro m hm
  cases pr with
  | false => exact hraw m (by simpa [getMatches] using hm)
  | true =>
      have hm2 : m ∈ pruneMatches (rawMatches queries [] maxDistSq) := by
        simpa [getMatches] using hm
      unfold pruneMatches at hm2
      obtain ⟨i, hi, he⟩ := List.mem_map.mp hm2
      have hilen : i < (rawMatches queries [] maxDistSq).length :=
        List.mem_range.mp hi
      have hx : (rawMatches queries [] maxDistSq)[i]? =
          some (rawMatches queries [] maxDistSq)[i] :=
        List.getElem?_eq_getElem hilen
      have hnone : (rawMatches queries [] maxDistSq)[i] = none :=
        hraw _ (List.getElem_mem hilen)
      rw [← he]
      simp [hx, hnone]

/-- C7: the correspondence search returns an empty result as a normal
value: the found-flag is `false` exactly when the output is empty, an
empty feature set yields the empty result (no error), and the caller
(`estimateMotion`) treats the empty result as pose estimation being
impossible this frame (tracking lost). -/
theorem getCorrespondences_empty_is_normal
    (M : Intrinsics) (w h maxDistSq : ℚ) (model : List Point3D)
    (feats : List Point2D) (E : Extrinsic) (li : Bool)
    (pnp : List (Point3D × Point2D) → Pose → Pose) (pose : Pose) (k : ℕ) :
    ((getCorrespondencesB M w h maxDistSq model feats E li).1 = false ↔
      (getCorrespondencesB M w h maxDistSq model feats E li).2.1 = [])
    ∧ getCorrespondences M w h maxDistSq model [] E li = ([], [])
    ∧ ((getCorrespondences M w h maxDistSq model feats (toExtrinsic pose)
          (decide (k = 0))).1 = [] →
        (estimateMotionAux M w h maxDistSq model feats pnp pose (k + 1)).1 =
          none) := by
  refine ⟨?_, ?_, ?_⟩
  · simp [getCorrespondencesB]
  · have hms := getMatches_nil_features
      ((getVisible3DPoints M E w h model).map Prod.snd) maxDistSq li
    unfold getCorrespondences
    have hpairs : ((getVisible3DPoints M E w h model).zip
        (getMatches ((getVisible3DPoints M E w h model).map Prod.snd) []
          maxDistSq li)).filterMap
        (fun pm => pm.2.bind fun td =>
          (([] : List Point2D))[td.1]?.map fun f => (pm.1.1, f)) = [] := by
      rw [List.filterMap_eq_nil]
      intro pm hpm
      obtain ⟨pv, m⟩ := pm
      have : m = none := hms m (List.mem_zip hpm).2
      rw [this]
      rfl
    simp only [hpairs]
    rfl
  · intro hemp
    simp only [estimateMotionAux, hemp]
    simp

/-- Witness for C7 at a concrete input: an empty feature set produces the
empty correspondence result. -/
theorem getCorrespondences_empty_is_normal_witness :
    getCorrespondences ⟨1,1,0,0⟩ 10 10 100 [⟨0,0,5⟩] []
      ⟨⟨1,0,0,0,1,0,0,0,1⟩, ⟨0,0,0⟩⟩ true = ([], []) :=
  (getCorrespondences_empty_is_normal ⟨1,1,0,0⟩ 10 10 100 [⟨0,0,5⟩] []
    ⟨⟨1,0,0,0,1,0,0,0,1⟩, ⟨0,0,0⟩⟩ true (fun _ p => p)
    ⟨⟨1,0,0,0,1,0,0,0,1⟩, ⟨0,0,0⟩⟩ 0).2.1

lemma estimateMotionAux_count (M : Intrinsics) (w h maxDistSq : ℚ)
    (model : List Point3D) (feats : List Point2D)
    (pnp : List (Point3D × Point2D) → Pose → Pose) :
    ∀ (k : ℕ) (pose : Pose),
      (estimateMotionAux M w h maxDistSq model feats pnp pose k).2 ≤ k ∧
      ((estimateMotionAux M w h maxDistSq model feats pnp pose k).1 = none ∨
        (estimateMotionAux M w h maxDistSq model feats pnp pose k).2 = k) := by
  intro k
  induction k with
  | zero => intro pose; exact ⟨le_refl 0, Or.inr rfl⟩
  | succ k ih =>
      intro pose
      simp only [estimateMotionAux]
      by_cases hc : (getCorrespondences M w h maxDistSq model feats
          (toExtrinsic pose) (decide (k = 0))).1.isEmpty = true
      · rw [if_pos hc]
        exact ⟨Nat.zero_le _, Or.inl rfl⟩
      · rw [if_neg hc]
        obtain ⟨h1, h2⟩ := ih (pnp
          (((getCorrespondences M w h maxDistSq model feats
              (toExtrinsic pose) (decide (k = 0))).1).zip
            ((getCorrespondences M w h maxDistSq model feats
              (toExtrinsic pose) (decide (k = 0))).2)) pose)
        constructor
        · exact Nat.succ_le_succ h1
        · rcases h2 with h2 | h2
          · exact Or.inl h2
          · exact Or.inr (by rw [h2])

/-- C8: `estimateMotion` performs at most `max_PnP_iterations` PnP
refinement iterations; the iteration count is the sole stopping criterion
(whenever the call succeeds it has run exactly `max_PnP_iterations`
solves, there is no residual-based early exit), and the defaulted call
uses the bound 10. -/
theorem estimateMotion_iteration_count
    (M : Intrinsics) (w h maxDistSq : ℚ) (model : List Point3D)
    (feats : List Point2D) (pnp : List (Point3D × Point2D) → Pose → Pose)
    (pose : Pose) (k : ℕ) :
    (estimateMotion M w h maxDistSq model feats pnp pose k).2 ≤ k
    ∧ ((estimateMotion M w h maxDistSq model feats pnp pose k).1 = none ∨
        (estimateMotion M w h maxDistSq model feats pnp pose k).2 = k)
    ∧ estimateMotionDefault M w h maxDistSq model feats pnp pose =
        estimateMotion M w h maxDistSq model feats pnp pose 10 :=
  ⟨(estimateMotionAux_count M w h maxDistSq model feats pnp k pose).1,
   (estimateMotionAux_count M w h maxDistSq model feats pnp k pose).2,
   rfl⟩

/-- Witness for C8 at a concrete input: the defaulted call on an empty
model performs no more than 10 solves. -/
theorem estimateMotion_iteration_count_witness :
    (estimateMotion ⟨1,1,0,0⟩ 10 10 100 [] [] (fun _ p => p)
        ⟨⟨1,0,0,0,1,0,0,0,1⟩, ⟨0,0,0⟩⟩ 10).2 ≤ 10 :=
  (estimateMotion_iteration_count ⟨1,1,0,0⟩ 10 10 100 [] [] (fun _ p => p)
    ⟨⟨1,0,0,0,1,0,0,0,1⟩, ⟨0,0,0⟩⟩ 10).1

/-- C9: neither `estimateFirstPose` nor `estimateMotion` mutates the 3D
model point cloud or the camera intrinsic matrix held in the odometry
state; only the pose (rotation matrix and translation vector) is
written. -/
theorem pose_estimation_preserves_model_and_intrinsics
    (s : MonoVOState) (feats : List Point2D)
    (min_inliers max_iterations : ℕ) (thr : ℚ)
    (hyps : ℕ → Option Extrinsic) (w h maxDistSq : ℚ)
    (pnp : List (Point3D × Point2D) → Pose → Pose) (k : ℕ) :
    ((estimateFirstPoseS s feats min_inliers max_iterations thr hyps).model =
        s.model
      ∧ (estimateFirstPoseS s feats min_inliers max_iterations thr
          hyps).intrinsic_matrix = s.intrinsic_matrix)
    ∧ ((estimateMotionS s w h maxDistSq feats pnp k).model = s.model
      ∧ (estimateMotionS s w h maxDistSq feats pnp k).intrinsic_matrix =
          s.intrinsic_matrix) := by
  constructor
  · unfold estimateFirstPoseS
    cases estimateFirstPose s.intrinsic_matrix s.model feats min_inliers
        max_iterations thr hyps with
    | none => exact ⟨rfl, rfl⟩
    | some E => exact ⟨rfl, rfl⟩
  · unfold estimateMotionS
    cases (estimateMotion s.intrinsic_matrix w h maxDistSq s.model feats pnp
        ⟨s.rmat, s.tvec⟩ k).1 with
    | none => exact ⟨rfl, rfl⟩
    | some p => exact ⟨rfl, rfl⟩

end MonoVO
